import Mathlib

/-!
Verification development for the race-app repository.

Part 1 embeds the circuit distance helper `calculateDistance` from the
circuit-creation screen (haversine sum over consecutive waypoints).

Part 2 embeds the race-detail session (`loadRaceData`, `connectWebSocket`,
the channel handlers, `joinRace`, `startRaceAsCreator`, `startRacing`,
`finishRace`) as a pure state machine with explicit request emission.

All definitions come first, followed by the theorems.
-/

/-- Two-argument arctangent, as used by the source through Math.atan2. -/
noncomputable def atan2 (y x : ℝ) : ℝ :=
  if 0 < x then Real.arctan (y / x)
  else if x < 0 then
    if 0 ≤ y then Real.arctan (y / x) + Real.pi else Real.arctan (y / x) - Real.pi
  else
    if 0 < y then Real.pi / 2 else if y < 0 then -(Real.pi / 2) else 0

/-- Degree-to-radian conversion, the source's `x * (Math.PI / 180)`. -/
noncomputable def toRad (x : ℝ) : ℝ :=
  x * (Real.pi / 180)

/-- The haversine intermediate `a` exactly as computed in the source loop body
of `calculateDistance`: `sin(dLat/2)*sin(dLat/2) + cos(lat1 rad)*cos(lat2 rad)*
sin(dLon/2)*sin(dLon/2)` with `dLat = (lat2-lat1)*(pi/180)`. A point is a
(latitude, longitude) pair in degrees. -/
noncomputable def havA (p q : ℝ × ℝ) : ℝ :=
  Real.sin (toRad (q.1 - p.1) / 2) * Real.sin (toRad (q.1 - p.1) / 2) +
    Real.cos (toRad p.1) * Real.cos (toRad q.1) *
      (Real.sin (toRad (q.2 - p.2) / 2) * Real.sin (toRad (q.2 - p.2) / 2))

/-- One loop iteration's contribution in the source: `R * c` with `R = 6371`
and `c = 2 * atan2(sqrt a, sqrt (1-a))`. -/
noncomputable def segmentKm (p q : ℝ × ℝ) : ℝ :=
  6371 * (2 * atan2 (Real.sqrt (havA p q)) (Real.sqrt (1 - havA p q)))

/-- The source's `calculateDistance`: returns 0 for fewer than 2 coordinates,
otherwise iterates `i` from `0` to `length - 2` accumulating
`segmentKm coords[i] coords[i+1]`. -/
noncomputable def calculateDistance (coords : List (ℝ × ℝ)) : ℝ :=
  if coords.length < 2 then 0
  else ∑ i ∈ Finset.range (coords.length - 1),
    segmentKm (coords.getD i (0, 0)) (coords.getD (i + 1) (0, 0))

/-- Recursive sum of segment lengths over consecutive pairs; the proof-friendly
form of the source loop. -/
noncomputable def pairSum : List (ℝ × ℝ) → ℝ
  | p :: q :: rest => segmentKm p q + pairSum (q :: rest)
  | _ => 0

/-- Modelled from the spec: the haversine `a` term written as the spec writes
it, `sin²(Δlat/2) + cos(lat1)·cos(lat2)·sin²(Δlon/2)` on radian values of the
degree inputs. -/
noncomputable def specHavA (p q : ℝ × ℝ) : ℝ :=
  Real.sin ((toRad q.1 - toRad p.1) / 2) ^ 2 +
    Real.cos (toRad p.1) * Real.cos (toRad q.1) *
      Real.sin ((toRad q.2 - toRad p.2) / 2) ^ 2

/-- Modelled from the spec: `segment_km = 2 · R · atan2(√a, √(1−a))` with
`R = 6371`. -/
noncomputable def specSegmentKm (p q : ℝ × ℝ) : ℝ :=
  2 * 6371 * atan2 (Real.sqrt (specHavA p q)) (Real.sqrt (1 - specHavA p q))

/-- Modelled from the spec: total distance is the sum over consecutive pairs
of the great-circle haversine distance. -/
noncomputable def specCircuitDistance : List (ℝ × ℝ) → ℝ
  | p :: q :: rest => specSegmentKm p q + specCircuitDistance (q :: rest)
  | _ => 0

/-- Segment contributed by appending one point after the last point of `l`
(0 when `l` is empty). -/
noncomputable def lastSeg (l : List (ℝ × ℝ)) (a : ℝ × ℝ) : ℝ :=
  match l.getLast? with
  | none => 0
  | some b => segmentKm b a

/-! Part 2: the race-detail session model. -/

/-- Race status as the server reports it. -/
inductive RaceStatus where
  | waiting
  | active
  | completed
deriving DecidableEq

/-- Race snapshot fetched from the server (user ids as naturals). -/
structure Race where
  creator_id : Nat
  status : RaceStatus
  participants : List Nat
deriving DecidableEq

/-- Requests and channel emissions issued by the client. -/
inductive Request where
  | joinReq
  | startReq
  | createRaceReq
  | finishEmit (finalTime : ℚ)
deriving DecidableEq

/-- Local state of the race-detail screen: the React state hooks plus the
socket and location-subscription refs. `socketsCreated` is a ghost counter of
physical channel connections opened during the session's lifetime. -/
structure SessionState where
  race : Option Race
  circuit : Option Nat
  leaderboard : List Nat
  loading : Bool
  isRacing : Bool
  raceStartTime : Option Nat
  socket : Bool
  socketsCreated : Nat
  locationSub : Bool
deriving DecidableEq

/-- State at mount, before the initial load. -/
def initialState : SessionState :=
  { race := none, circuit := none, leaderboard := [], loading := true,
    isRacing := false, raceStartTime := none, socket := false,
    socketsCreated := 0, locationSub := false }

/-- The source's `connectWebSocket`: a no-op when a socket already exists,
otherwise it opens exactly one connection. -/
def connectWebSocket (s : SessionState) : SessionState :=
  if s.socket then s
  else { s with socket := true, socketsCreated := s.socketsCreated + 1 }

/-- The source's `loadRaceData`: race and leaderboard are fetched together
(both set or neither, via Promise.all), then the circuit; after full success
the channel is connected iff the fetched status is active or waiting; any
failure falls to the catch block, which only clears the loading flag. -/
def loadRaceData (s : SessionState) (raceRes : Option Race)
    (lbRes : Option (List Nat)) (circuitRes : Option Nat) : SessionState :=
  match raceRes, lbRes with
  | some r, some lb =>
    let s1 := { s with race := some r, leaderboard := lb }
    match circuitRes with
    | some c =>
      let s2 := { s1 with circuit := some c }
      let s3 :=
        if r.status = RaceStatus.active ∨ r.status = RaceStatus.waiting then
          connectWebSocket s2
        else s2
      { s3 with loading := false }
    | none => { s1 with loading := false }
  | _, _ => { s with loading := false }

/-- The source's `startRacing`: requests location permission; if refused
nothing happens; if granted the racing flag is set, the start timestamp is
recorded and the location subscription is opened. -/
def startRacing (s : SessionState) (permissionGranted : Bool) (now : Nat) :
    SessionState :=
  if permissionGranted then
    { s with isRacing := true, raceStartTime := some now, locationSub := true }
  else s

/-- The source's `race_started` channel handler: set local status to active
and call `startRacing` — with no joined-participant check. -/
def handleRaceStarted (s : SessionState) (permissionGranted : Bool) (now : Nat) :
    SessionState :=
  startRacing
    { s with race := s.race.map (fun r => { r with status := RaceStatus.active }) }
    permissionGranted now

/-- The source's `joinRace` body: it unconditionally issues the join request
(the only gating is the Join button's visibility). -/
def joinRace (s : SessionState) : SessionState × List Request :=
  (s, [Request.joinReq])

/-- The source's `startRaceAsCreator` body: issues the start request; its
success path changes no local state. -/
def startRaceAsCreator (s : SessionState) : SessionState × List Request :=
  (s, [Request.startReq])

/-- Elapsed seconds computed by `finishRace`:
`(Date.now() - (raceStartTime || 0)) / 1000`. -/
def finalTimeOf (startTime : Option Nat) (now : Nat) : ℚ :=
  ((now : ℚ) - ((startTime.getD 0 : Nat) : ℚ)) / 1000

/-- The source's `finishRace` confirmation handler, up to its trailing
reload: emits `finish_race` when the socket exists, stops racing, and
releases the location subscription. -/
def finishRace (s : SessionState) (now : Nat) : SessionState × List Request :=
  ({ s with isRacing := false, locationSub := false },
    if s.socket then [Request.finishEmit (finalTimeOf s.raceStartTime now)]
    else [])

/-- True when the screen renders its action buttons (the source shows an
error screen whenever race or circuit is missing). -/
def screenUsable (s : SessionState) : Bool :=
  s.race.isSome && s.circuit.isSome

/-- The source's `hasJoined`: this user is in the participant list. -/
def hasJoined (s : SessionState) (userId : Nat) : Bool :=
  match s.race with
  | some r => r.participants.contains userId
  | none => false

/-- Visibility of the Join button: status waiting and not already joined. -/
def joinVisible (s : SessionState) (userId : Nat) : Bool :=
  screenUsable s &&
    (match s.race with
     | some r => decide (r.status = RaceStatus.waiting)
     | none => false) &&
    !(hasJoined s userId)

/-- The source's `canStart`: creator, status waiting, and at least one
participant. -/
def canStart (s : SessionState) (userId : Nat) : Bool :=
  match s.race with
  | some r =>
    decide (r.creator_id = userId) && decide (r.status = RaceStatus.waiting) &&
      decide (0 < r.participants.length)
  | none => false

/-- Visibility of the Start Race button. -/
def startVisible (s : SessionState) (userId : Nat) : Bool :=
  screenUsable s && canStart s userId

/-- Visibility of the Begin Racing button: active, joined, not racing. -/
def beginVisible (s : SessionState) (userId : Nat) : Bool :=
  screenUsable s &&
    (match s.race with
     | some r => decide (r.status = RaceStatus.active)
     | none => false) &&
    hasJoined s userId && !s.isRacing

/-- Session events: user taps, request responses, and channel events, each
carrying the data its fetches would return. -/
inductive SessionEvent where
  | load (raceRes : Option Race) (lbRes : Option (List Nat))
      (circuitRes : Option Nat)
  | chanRaceStarted (permissionGranted : Bool) (now : Nat)
  | chanParticipantFinished (raceRes : Option Race) (lbRes : Option (List Nat))
      (circuitRes : Option Nat)
  | tapJoin (userId : Nat)
  | joinSuccess (raceRes : Option Race) (lbRes : Option (List Nat))
      (circuitRes : Option Nat)
  | tapStart (userId : Nat)
  | startSuccess
  | tapBeginRacing (userId : Nat) (permissionGranted : Bool) (now : Nat)
  | tapFinish (now : Nat) (raceRes : Option Race) (lbRes : Option (List Nat))
      (circuitRes : Option Nat)
deriving DecidableEq

/-- One session step: the state after the event together with the requests
and channel emissions it issues. Channel handlers only run when the socket
exists; taps only act when the corresponding button is rendered. -/
def step (s : SessionState) : SessionEvent → SessionState × List Request
  | SessionEvent.load r lb c => (loadRaceData s r lb c, [])
  | SessionEvent.chanRaceStarted perm now =>
    if s.socket then (handleRaceStarted s perm now, []) else (s, [])
  | SessionEvent.chanParticipantFinished r lb c =>
    if s.socket then (loadRaceData s r lb c, []) else (s, [])
  | SessionEvent.tapJoin u => if joinVisible s u then joinRace s else (s, [])
  | SessionEvent.joinSuccess r lb c => (loadRaceData s r lb c, [])
  | SessionEvent.tapStart u =>
    if startVisible s u then startRaceAsCreator s else (s, [])
  | SessionEvent.startSuccess => (s, [])
  | SessionEvent.tapBeginRacing u perm now =>
    if beginVisible s u then (startRacing s perm now, []) else (s, [])
  | SessionEvent.tapFinish now r lb c =>
    if s.isRacing then
      let p := finishRace s now
      (loadRaceData p.1 r lb c, p.2)
    else (s, [])

/-- Run a list of session events from a state, discarding emissions. -/
def runTrace (s : SessionState) (es : List SessionEvent) : SessionState :=
  es.foldl (fun s e => (step s e).1) s

/-- Locally observed race status. -/
def statusOf (s : SessionState) : Option RaceStatus :=
  s.race.map Race.status

/-- Progress rank of the observed status along the race lifecycle. -/
def rank : Option RaceStatus → Nat
  | none => 0
  | some RaceStatus.waiting => 1
  | some RaceStatus.active => 2
  | some RaceStatus.completed => 3

/-- Invariant tying the ghost connection counter to the socket flag. -/
def socketInv (s : SessionState) : Prop :=
  s.socketsCreated = if s.socket then 1 else 0

/-- Reload data is admissible when a successful fetch carries a status at
least as advanced as the current local one. -/
def fetchOk (s : SessionState) (raceRes : Option Race)
    (lbRes : Option (List Nat)) : Bool :=
  match raceRes, lbRes with
  | some r, some _ => decide (rank (statusOf s) ≤ rank (some r.status))
  | _, _ => true

/-- Admissibility of one event for the monotone-status property: reloads must
not deliver a regressed status, and race_started must not arrive on an open
socket once the local status is completed. -/
def stepOk (s : SessionState) : SessionEvent → Bool
  | SessionEvent.load r lb _ => fetchOk s r lb
  | SessionEvent.chanParticipantFinished r lb _ => fetchOk s r lb
  | SessionEvent.joinSuccess r lb _ => fetchOk s r lb
  | SessionEvent.tapFinish _ r lb _ => fetchOk s r lb
  | SessionEvent.chanRaceStarted _ _ =>
    !s.socket || decide (statusOf s ≠ some RaceStatus.completed)
  | _ => true

/-- A trace whose every step is admissible from the state it fires in. -/
def goodTrace : SessionState → List SessionEvent → Bool
  | _, [] => true
  | s, e :: es => stepOk s e && goodTrace (step s e).1 es

/-- Local state of the circuit screen's create-race action. -/
structure CreateRaceState where
  creating : Bool
deriving DecidableEq

/-- The source's `createRace` press: the button is disabled while `creating`
is set; otherwise it sets `creating` and issues one create request. -/
def pressCreateRace (st : CreateRaceState) : CreateRaceState × List Request :=
  if st.creating then (st, [])
  else ({ creating := true }, [Request.createRaceReq])

/-- Sample waiting race: creator 1, one participant (user 2). -/
def raceW : Race :=
  { creator_id := 1, status := RaceStatus.waiting, participants := [2] }

/-- Sample active race: creator 1, one participant (user 2). -/
def raceA : Race :=
  { creator_id := 1, status := RaceStatus.active, participants := [2] }

/-- Sample waiting race with no participants at all. -/
def raceWEmpty : Race :=
  { creator_id := 1, status := RaceStatus.waiting, participants := [] }

/-- Loaded state on a waiting race with a startable participant list. -/
def stateStartable : SessionState :=
  { initialState with race := some raceW, circuit := some 7 }

/-- Loaded state on an active race with an open socket. -/
def stateActive : SessionState :=
  { initialState with
    race := some raceA
    circuit := some 7
    socket := true
    socketsCreated := 1 }

/-- State reached by loading a waiting, participant-free race. -/
def loadedW : SessionState :=
  runTrace initialState [SessionEvent.load (some raceWEmpty) (some []) (some 7)]

/-- A mid-race state: racing since timestamp 10 with an open socket. -/
def racingState : SessionState :=
  { initialState with
    race := some raceA
    circuit := some 7
    isRacing := true
    raceStartTime := some 10
    socket := true
    socketsCreated := 1
    locationSub := true }

/-! Theorems. -/

theorem specHavA_eq_havA (p q : ℝ × ℝ) : specHavA p q = havA p q := by
  unfold specHavA havA toRad
  have h1 : q.1 * (Real.pi / 180) - p.1 * (Real.pi / 180)
      = (q.1 - p.1) * (Real.pi / 180) := by ring
  have h2 : q.2 * (Real.pi / 180) - p.2 * (Real.pi / 180)
      = (q.2 - p.2) * (Real.pi / 180) := by ring
  rw [h1, h2]
  ring

theorem specSegmentKm_eq_segmentKm (p q : ℝ × ℝ) :
    specSegmentKm p q = segmentKm p q := by
  unfold specSegmentKm segmentKm
  rw [specHavA_eq_havA]
  ring

theorem havA_comm (p q : ℝ × ℝ) : havA q p = havA p q := by
  unfold havA toRad
  have h1 : (p.1 - q.1) * (Real.pi / 180) / 2
      = -((q.1 - p.1) * (Real.pi / 180) / 2) := by ring
  have h2 : (p.2 - q.2) * (Real.pi / 180) / 2
      = -((q.2 - p.2) * (Real.pi / 180) / 2) := by ring
  rw [h1, h2, Real.sin_neg, Real.sin_neg]
  ring

theorem segmentKm_comm (p q : ℝ × ℝ) : segmentKm q p = segmentKm p q := by
  unfold segmentKm
  rw [havA_comm]

theorem havA_self (p : ℝ × ℝ) : havA p p = 0 := by
  simp [havA, toRad]

theorem segmentKm_self (p : ℝ × ℝ) : segmentKm p p = 0 := by
  rw [segmentKm, havA_self, Real.sqrt_zero, sub_zero, Real.sqrt_one]
  rw [show atan2 0 1 = Real.arctan (0 / 1) from if_pos one_pos]
  simp

theorem sum_range_segment (l : List (ℝ × ℝ)) :
    ∑ i ∈ Finset.range (l.length - 1),
      segmentKm (l.getD i (0, 0)) (l.getD (i + 1) (0, 0)) = pairSum l := by
  induction l with
  | nil => simp [pairSum]
  | cons x t ih =>
    cases t with
    | nil => simp [pairSum]
    | cons y t2 =>
      have hlen : (x :: y :: t2).length - 1 = ((y :: t2).length - 1) + 1 := by
        simp
      rw [hlen, Finset.sum_range_succ']
      simp only [List.getD_cons_succ, List.getD_cons_zero] at ih ⊢
      rw [ih]
      show pairSum (y :: t2) + segmentKm x y = pairSum (x :: y :: t2)
      rw [show pairSum (x :: y :: t2) = segmentKm x y + pairSum (y :: t2) from rfl]
      ring

theorem calculateDistance_eq_pairSum (l : List (ℝ × ℝ)) :
    calculateDistance l = pairSum l := by
  unfold calculateDistance
  by_cases h : l.length < 2
  · rw [if_pos h]
    match l, h with
    | [], _ => rfl
    | [p], _ => rfl
  · rw [if_neg h, sum_range_segment]

theorem pairSum_eq_specCircuitDistance (l : List (ℝ × ℝ)) :
    pairSum l = specCircuitDistance l := by
  induction l with
  | nil => rfl
  | cons x t ih =>
    cases t with
    | nil => rfl
    | cons y t2 =>
      show segmentKm x y + pairSum (y :: t2)
          = specSegmentKm x y + specCircuitDistance (y :: t2)
      rw [specSegmentKm_eq_segmentKm, ih]

/-- C1: for every ordered list of (latitude, longitude) pairs in degrees, the
source's `calculateDistance` equals the spec's sum over consecutive pairs of
the haversine great-circle distance with Earth radius 6371 km, and every list
of fewer than 2 points yields 0. -/
theorem calculateDistance_spec (coords : List (ℝ × ℝ)) :
    calculateDistance coords = specCircuitDistance coords ∧
      (coords.length < 2 → calculateDistance coords = 0) := by
  constructor
  · rw [calculateDistance_eq_pairSum, pairSum_eq_specCircuitDistance]
  · intro h
    unfold calculateDistance
    rw [if_pos h]

/-- Witness for C1 at the concrete one-point input. -/
theorem calculateDistance_spec_witness :
    calculateDistance [((3 : ℝ), (4 : ℝ))] = 0 :=
  (calculateDistance_spec [((3 : ℝ), (4 : ℝ))]).2 (by simp)

theorem pairSum_append_single (l : List (ℝ × ℝ)) (a : ℝ × ℝ) :
    pairSum (l ++ [a]) = pairSum l + lastSeg l a := by
  induction l with
  | nil => simp [pairSum, lastSeg]
  | cons x t ih =>
    cases t with
    | nil => simp [pairSum, lastSeg]
    | cons y t2 =>
      show segmentKm x y + pairSum ((y :: t2) ++ [a])
          = (segmentKm x y + pairSum (y :: t2)) + lastSeg (x :: y :: t2) a
      rw [ih]
      have h : lastSeg (x :: y :: t2) a = lastSeg (y :: t2) a := by
        simp [lastSeg, List.getLast?_cons_cons]
      rw [h]
      ring

theorem pairSum_reverse (l : List (ℝ × ℝ)) : pairSum l.reverse = pairSum l := by
  induction l with
  | nil => rfl
  | cons x t ih =>
    rw [List.reverse_cons, pairSum_append_single, ih]
    cases t with
    | nil => simp [pairSum, lastSeg]
    | cons y t2 =>
      have hl : lastSeg (y :: t2).reverse x = segmentKm y x := by
        simp [lastSeg, List.getLast?_reverse]
      rw [hl, segmentKm_comm x y]
      show pairSum (y :: t2) + segmentKm x y = segmentKm x y + pairSum (y :: t2)
      ring

theorem pairSum_dup (xs ys : List (ℝ × ℝ)) (p : ℝ × ℝ) :
    pairSum (xs ++ p :: p :: ys) = pairSum (xs ++ p :: ys) := by
  induction xs with
  | nil =>
    show segmentKm p p + pairSum (p :: ys) = pairSum (p :: ys)
    rw [segmentKm_self]
    ring
  | cons x t ih =>
    cases t with
    | nil =>
      have ih0 : pairSum (p :: p :: ys) = pairSum (p :: ys) := ih
      show segmentKm x p + pairSum (p :: p :: ys) = segmentKm x p + pairSum (p :: ys)
      rw [ih0]
    | cons y t2 =>
      have ih2 : pairSum (y :: (t2 ++ p :: p :: ys)) = pairSum (y :: (t2 ++ p :: ys)) := ih
      show segmentKm x y + pairSum (y :: (t2 ++ p :: p :: ys))
          = segmentKm x y + pairSum (y :: (t2 ++ p :: ys))
      rw [ih2]

/-- C9: the circuit distance is unchanged when the coordinate list is
reversed, and inserting a duplicate of an existing point next to itself adds
zero to the distance. -/
theorem calculateDistance_reverse_dup (l xs ys : List (ℝ × ℝ)) (p : ℝ × ℝ) :
    calculateDistance l.reverse = calculateDistance l ∧
      calculateDistance (xs ++ p :: p :: ys) = calculateDistance (xs ++ p :: ys) := by
  constructor
  · rw [calculateDistance_eq_pairSum, calculateDistance_eq_pairSum, pairSum_reverse]
  · rw [calculateDistance_eq_pairSum, calculateDistance_eq_pairSum, pairSum_dup]

theorem socket_connectWebSocket (s : SessionState) :
    (connectWebSocket s).socket = true := by
  unfold connectWebSocket
  cases hs : s.socket <;> simp [hs]

theorem statusOf_connectWebSocket (s : SessionState) :
    statusOf (connectWebSocket s) = statusOf s := by
  unfold connectWebSocket
  cases hs : s.socket <;> simp [hs, statusOf]

theorem statusOf_loadRaceData_ok (s : SessionState) (r : Race) (lb : List Nat)
    (c : Option Nat) :
    statusOf (loadRaceData s (some r) (some lb) c) = some r.status := by
  cases c with
  | none => simp [loadRaceData, statusOf]
  | some cv =>
    by_cases hst : r.status = RaceStatus.active ∨ r.status = RaceStatus.waiting
    · simp only [loadRaceData, if_pos hst]
      have h1 : statusOf (connectWebSocket
          { s with race := some r, leaderboard := lb, circuit := some cv })
          = some r.status := by
        rw [statusOf_connectWebSocket]
        simp [statusOf]
      simpa [statusOf] using h1
    · simp [loadRaceData, if_neg hst, statusOf]

theorem statusOf_loadRaceData_err (s : SessionState) (r : Option Race)
    (lb : Option (List Nat)) (c : Option Nat) (h : r = none ∨ lb = none) :
    statusOf (loadRaceData s r lb c) = statusOf s := by
  cases r with
  | none => simp [loadRaceData, statusOf]
  | some rv =>
    cases lb with
    | none => simp [loadRaceData, statusOf]
    | some lbv => rcases h with h | h <;> simp at h

theorem statusOf_startRacing (s : SessionState) (perm : Bool) (now : Nat) :
    statusOf (startRacing s perm now) = statusOf s := by
  unfold startRacing
  cases hp : perm <;> simp [statusOf]

theorem statusOf_handleRaceStarted (s : SessionState) (perm : Bool) (now : Nat) :
    statusOf (handleRaceStarted s perm now)
      = Option.map (fun _ => RaceStatus.active) s.race := by
  unfold handleRaceStarted
  rw [statusOf_startRacing]
  cases s.race <;> simp [statusOf]

/-- C2: a Start Race tap issues a request only under the source's `canStart`
gate; the tap and the HTTP success handler leave local state — in particular
a waiting status — unchanged (only the race_started channel event flips it);
and `canStart` holds exactly for the race's creator, while status is waiting,
with at least one participant. -/
theorem startAsCreator_spec (s : SessionState) (u : Nat) :
    ((step s (SessionEvent.tapStart u)).2 ≠ [] → canStart s u = true) ∧
      (step s (SessionEvent.tapStart u)).1 = s ∧
      step s SessionEvent.startSuccess = (s, []) ∧
      (canStart s u = true ↔ ∃ r, s.race = some r ∧ r.creator_id = u ∧
        r.status = RaceStatus.waiting ∧ 1 ≤ r.participants.length) := by
  refine ⟨?_, ?_, rfl, ?_⟩
  · intro h
    by_cases hv : startVisible s u = true
    · exact (Bool.and_eq_true_iff.mp hv).2
    · rw [Bool.not_eq_true] at hv
      simp [step, hv] at h
  · by_cases hv : startVisible s u = true
    · simp [step, hv, startRaceAsCreator]
    · rw [Bool.not_eq_true] at hv
      simp [step, hv]
  · cases hr : s.race with
    | none => simp [canStart, hr]
    | some r =>
      simp only [canStart, hr]
      constructor
      · intro h
        rcases Bool.and_eq_true_iff.mp h with ⟨h12, h3⟩
        rcases Bool.and_eq_true_iff.mp h12 with ⟨h1, h2⟩
        exact ⟨r, rfl, of_decide_eq_true h1, of_decide_eq_true h2,
          of_decide_eq_true h3⟩
      · rintro ⟨r2, hr2, hc, hs2, hlen⟩
        have : r = r2 := by
          have := hr2
          rw [Option.some_inj] at this
          exact this
        subst this
        refine Bool.and_eq_true_iff.mpr ⟨Bool.and_eq_true_iff.mpr ⟨?_, ?_⟩, ?_⟩
        · exact decide_eq_true hc
        · exact decide_eq_true hs2
        · exact decide_eq_true hlen

/-- Witness for C2: in the startable sample state the Start tap issues a
request, so the gate is established concretely. -/
theorem startAsCreator_spec_witness : canStart stateStartable 1 = true :=
  (startAsCreator_spec stateStartable 1).1 (by decide)

/-- C4: whenever the locally observed status is not waiting, a Join attempt
does nothing: no request is issued and the state is unchanged (the source
gates join through the Join button's visibility predicate). -/
theorem join_only_waiting (s : SessionState) (u : Nat)
    (h : statusOf s ≠ some RaceStatus.waiting) :
    step s (SessionEvent.tapJoin u) = (s, []) := by
  have hv : joinVisible s u = false := by
    unfold joinVisible
    cases hr : s.race with
    | none => simp
    | some r =>
      have hne : ¬ r.status = RaceStatus.waiting := by
        intro hw
        exact h (by simp [statusOf, hr, hw])
      simp [hr, hne]
  simp [step, hv]

/-- Witness for C4: joining an active race is a local no-op. -/
theorem join_only_waiting_witness :
    step stateActive (SessionEvent.tapJoin 2) = (stateActive, []) :=
  join_only_waiting stateActive 2 (by decide)

/-- Counterexample to C3 as stated: after loading a waiting race that nobody
has joined (participants empty), the race_started event still begins local
racing — the handler calls startRacing with no joined check. -/
theorem raceStarted_unjoined_racing :
    hasJoined loadedW 2 = false ∧
      (runTrace initialState
        [SessionEvent.load (some raceWEmpty) (some []) (some 7),
         SessionEvent.chanRaceStarted true 100]).isRacing = true := by
  exact ⟨rfl, rfl⟩

/-- C3 amended: on race_started with the socket open the local status is set
to active, and local racing (racing flag, start timestamp, location
subscription) begins unconditionally — regardless of whether this participant
has joined — whenever location permission is granted; if permission is
refused, no racing starts. -/
theorem raceStarted_spec (s : SessionState) (perm : Bool) (now : Nat)
    (hs : s.socket = true) :
    statusOf (step s (SessionEvent.chanRaceStarted perm now)).1
        = Option.map (fun _ => RaceStatus.active) s.race ∧
      (perm = true →
        (step s (SessionEvent.chanRaceStarted perm now)).1.isRacing = true ∧
        (step s (SessionEvent.chanRaceStarted perm now)).1.raceStartTime = some now ∧
        (step s (SessionEvent.chanRaceStarted perm now)).1.locationSub = true) ∧
      (perm = false →
        (step s (SessionEvent.chanRaceStarted perm now)).1.isRacing = s.isRacing) := by
  have hstep : (step s (SessionEvent.chanRaceStarted perm now)).1
      = handleRaceStarted s perm now := by
    simp [step, hs]
  refine ⟨?_, ?_, ?_⟩
  · rw [hstep, statusOf_handleRaceStarted]
  · intro hp
    subst hp
    rw [hstep]
    unfold handleRaceStarted startRacing
    simp
  · intro hp
    subst hp
    rw [hstep]
    unfold handleRaceStarted startRacing
    simp

/-- Witness for C3's amended theorem in the loaded waiting state. -/
theorem raceStarted_spec_witness :
    (step loadedW (SessionEvent.chanRaceStarted true 100)).1.isRacing = true :=
  (((raceStarted_spec loadedW true 100 (by decide)).2.1) rfl).1

/-- Counterexample to C5 as stated: when the circuit fetch fails after the
race and leaderboard fetches succeeded, the failed load leaves partial state —
race and leaderboard populated while the circuit is missing — although no
channel is opened. -/
theorem load_partial_state :
    (step initialState (SessionEvent.load (some raceW) (some [5]) none)).1.race
        = some raceW ∧
      (step initialState (SessionEvent.load (some raceW) (some [5]) none)).1.leaderboard
        = [5] ∧
      (step initialState (SessionEvent.load (some raceW) (some [5]) none)).1.circuit
        = none ∧
      (step initialState (SessionEvent.load (some raceW) (some [5]) none)).1.socket
        = false := by
  exact ⟨rfl, rfl, rfl, rfl⟩

/-- C5 amended: after a load, the channel is open iff the fetched status is
waiting or active (not when completed); if the race or leaderboard fetch
fails, no field beyond the loading flag changes (so from the initial state
the session is unusable and no channel is opened); if only the circuit fetch
fails, the race and leaderboard snapshots stay populated (partial state),
the screen still renders unusable from the initial state, and no channel is
opened. -/
theorem load_spec (s : SessionState) (r : Race) (lb : List Nat) (cv : Nat)
    (rr : Option Race) (lbr : Option (List Nat)) (cr : Option Nat) :
    ((r.status = RaceStatus.waiting ∨ r.status = RaceStatus.active) →
        (loadRaceData s (some r) (some lb) (some cv)).socket = true) ∧
      (r.status = RaceStatus.completed →
        (loadRaceData s (some r) (some lb) (some cv)).socket = s.socket) ∧
      (rr = none ∨ lbr = none →
        loadRaceData s rr lbr cr = { s with loading := false }) ∧
      loadRaceData s (some r) (some lb) none
        = { s with race := some r, leaderboard := lb, loading := false } ∧
      screenUsable (loadRaceData initialState (some r) (some lb) none) = false := by
  refine ⟨?_, ?_, ?_, rfl, rfl⟩
  · intro hst
    rcases hst with h | h <;>
      simp [loadRaceData, h, socket_connectWebSocket]
  · intro hst
    simp [loadRaceData, hst]
  · intro h
    cases rr with
    | none => rfl
    | some rv =>
      cases lbr with
      | none => rfl
      | some lbv => rcases h with h | h <;> simp at h

/-- Witness for C5's amended theorem: loading a waiting race opens the
channel. -/
theorem load_spec_witness :
    (loadRaceData initialState (some raceW) (some []) (some 7)).socket = true :=
  (load_spec initialState raceW [] 7 none none none).1 (Or.inl rfl)

/-- C6: finishRace computes the final time as (now − start_timestamp)/1000
seconds; with the socket open it emits exactly one finish_race event carrying
that value; it clears the racing flag (stopping the timer effect) and
releases the location subscription; and for real elapsed time (now ≥ start)
the value is never negative and is monotone in now. -/
theorem finishRace_spec (s : SessionState) (t n1 n2 : Nat)
    (hst : s.raceStartTime = some t) (hsock : s.socket = true)
    (h1 : t ≤ n1) (h12 : n1 ≤ n2) :
    finalTimeOf s.raceStartTime n1 = ((n1 : ℚ) - (t : ℚ)) / 1000 ∧
      (finishRace s n1).2 = [Request.finishEmit (finalTimeOf s.raceStartTime n1)] ∧
      (finishRace s n1).1.isRacing = false ∧
      (finishRace s n1).1.locationSub = false ∧
      0 ≤ finalTimeOf s.raceStartTime n1 ∧
      finalTimeOf s.raceStartTime n1 ≤ finalTimeOf s.raceStartTime n2 := by
  have hval : ∀ n : Nat, finalTimeOf s.raceStartTime n = ((n : ℚ) - (t : ℚ)) / 1000 := by
    intro n
    rw [hst]
    simp [finalTimeOf]
  refine ⟨hval n1, ?_, rfl, rfl, ?_, ?_⟩
  · simp [finishRace, hsock]
  · rw [hval n1]
    apply div_nonneg _ (by norm_num)
    have : (t : ℚ) ≤ (n1 : ℚ) := by exact_mod_cast h1
    linarith
  · rw [hval n1, hval n2]
    apply div_le_div_of_nonneg_right ?_ (by norm_num)
    have : (n1 : ℚ) ≤ (n2 : ℚ) := by exact_mod_cast h12
    linarith

/-- Witness for C6 in the mid-race sample state (start 10, finish at 1010). -/
theorem finishRace_spec_witness :
    (finishRace racingState 1010).2
      = [Request.finishEmit (finalTimeOf racingState.raceStartTime 1010)] :=
  (finishRace_spec racingState 10 1010 2010 rfl rfl (by decide) (by decide)).2.1

/-- Counterexample to C8 as stated: joinRace has no in-flight flag and the
Join button is never disabled, so tapping Join twice with no response in
between issues two join requests. -/
theorem double_join_two_requests :
    (step stateStartable (SessionEvent.tapJoin 3)).2 ++
      (step (step stateStartable (SessionEvent.tapJoin 3)).1
        (SessionEvent.tapJoin 3)).2
      = [Request.joinReq, Request.joinReq] := by
  rfl

/-- C8 amended: the circuit screen's create-race action is guarded by its
`creating` in-flight flag, so a double-tap issues at most one create request;
but the race screen's join action has no in-flight guard, so a double-tap on
a visible Join button issues two join requests. -/
theorem inflight_guard_spec (st : CreateRaceState) (s : SessionState) (u : Nat)
    (h : joinVisible s u = true) :
    ((pressCreateRace st).2 ++ (pressCreateRace (pressCreateRace st).1).2).length ≤ 1 ∧
      (step s (SessionEvent.tapJoin u)).2 ++
        (step (step s (SessionEvent.tapJoin u)).1 (SessionEvent.tapJoin u)).2
        = [Request.joinReq, Request.joinReq] := by
  constructor
  · cases hc : st.creating <;> simp [pressCreateRace, hc]
  · have h1 : step s (SessionEvent.tapJoin u) = (s, [Request.joinReq]) := by
      simp [step, h, joinRace]
    rw [h1]
    simp [step, h, joinRace]

/-- Witness for C8's amended theorem: a fresh create-race state and the
loaded waiting state with a non-participant user. -/
theorem inflight_guard_spec_witness :
    ((pressCreateRace { creating := false }).2 ++
      (pressCreateRace (pressCreateRace { creating := false }).1).2).length ≤ 1 :=
  (inflight_guard_spec { creating := false } loadedW 3 (by decide)).1

theorem socketInv_connectWebSocket (s : SessionState) (h : socketInv s) :
    socketInv (connectWebSocket s) := by
  unfold connectWebSocket socketInv at *
  cases hs : s.socket <;> simp [hs] at h ⊢ <;> omega

theorem socketInv_loadRaceData (s : SessionState) (r : Option Race)
    (lb : Option (List Nat)) (c : Option Nat) (h : socketInv s) :
    socketInv (loadRaceData s r lb c) := by
  cases r with
  | none => exact h
  | some rv =>
    cases lb with
    | none => exact h
    | some lbv =>
      cases c with
      | none => exact h
      | some cc =>
        by_cases hst : rv.status = RaceStatus.active ∨ rv.status = RaceStatus.waiting
        · have h2 : socketInv (connectWebSocket
              { s with race := some rv, leaderboard := lbv, circuit := some cc }) :=
            socketInv_connectWebSocket _ h
          simp only [loadRaceData, if_pos hst]
          exact h2
        · simp only [loadRaceData, if_neg hst]
          exact h

theorem socketInv_startRacing (s : SessionState) (perm : Bool) (now : Nat)
    (h : socketInv s) : socketInv (startRacing s perm now) := by
  unfold startRacing
  cases perm
  · exact h
  · exact h

theorem socketInv_step (s : SessionState) (e : SessionEvent) (h : socketInv s) :
    socketInv (step s e).1 := by
  cases e with
  | load r lb c => exact socketInv_loadRaceData s r lb c h
  | chanRaceStarted perm now =>
    cases hs : s.socket
    · simp only [step, hs]
      exact h
    · simp only [step, hs]
      exact socketInv_startRacing _ perm now h
  | chanParticipantFinished r lb c =>
    cases hs : s.socket
    · simp only [step, hs]
      exact h
    · simp only [step, hs]
      exact socketInv_loadRaceData s r lb c h
  | tapJoin u =>
    cases hv : joinVisible s u <;> simp only [step, hv] <;> exact h
  | joinSuccess r lb c => exact socketInv_loadRaceData s r lb c h
  | tapStart u =>
    cases hv : startVisible s u <;> simp only [step, hv] <;> exact h
  | startSuccess => exact h
  | tapBeginRacing u perm now =>
    cases hv : beginVisible s u
    · simp only [step, hv]
      exact h
    · simp only [step, hv]
      exact socketInv_startRacing _ perm now h
  | tapFinish now r lb c =>
    cases hrc : s.isRacing
    · simp only [step, hrc]
      exact h
    · simp only [step, hrc]
      exact socketInv_loadRaceData _ r lb c h

theorem socketInv_runTrace (es : List SessionEvent) (s : SessionState)
    (h : socketInv s) : socketInv (runTrace s es) := by
  induction es generalizing s with
  | nil => exact h
  | cons e t ih => exact ih (step s e).1 (socketInv_step s e h)

/-- C10: across every sequence of session events run from the mounted state,
at most one channel connection is ever created — `connectWebSocket` is a
no-op once a socket exists, so the reloads that re-run it never open a second
connection. -/
theorem sockets_created_le_one (es : List SessionEvent) :
    (runTrace initialState es).socketsCreated ≤ 1 := by
  have h := socketInv_runTrace es initialState (by simp [socketInv, initialState])
  unfold socketInv at h
  rw [h]
  cases (runTrace initialState es).socket <;> simp

theorem load_status_mono (s : SessionState) (r : Option Race)
    (lb : Option (List Nat)) (c : Option Nat) (h : fetchOk s r lb = true) :
    rank (statusOf s) ≤ rank (statusOf (loadRaceData s r lb c)) := by
  cases r with
  | none =>
    rw [statusOf_loadRaceData_err s none lb c (Or.inl rfl)]
  | some rv =>
    cases lb with
    | none =>
      rw [statusOf_loadRaceData_err s (some rv) none c (Or.inr rfl)]
    | some lbv =>
      rw [statusOf_loadRaceData_ok]
      exact of_decide_eq_true h

theorem step_status_mono (s : SessionState) (e : SessionEvent)
    (h : stepOk s e = true) :
    rank (statusOf s) ≤ rank (statusOf (step s e).1) := by
  cases e with
  | load r lb c => exact load_status_mono s r lb c h
  | chanRaceStarted perm now =>
    cases hs : s.socket
    · simp only [step, hs]
      exact Nat.le_refl _
    · have hne : statusOf s ≠ some RaceStatus.completed := by
        simp only [stepOk] at h
        rw [hs] at h
        simpa using h
      have hstep : (step s (SessionEvent.chanRaceStarted perm now)).1
          = handleRaceStarted s perm now := by
        simp [step, hs]
      rw [hstep, statusOf_handleRaceStarted]
      cases hr : s.race with
      | none => simp [statusOf, hr, rank]
      | some rv =>
        simp only [statusOf, hr, Option.map_some']
        cases hstv : rv.status with
        | waiting => simp [rank]
        | active => simp [rank]
        | completed =>
          exfalso
          apply hne
          simp [statusOf, hr, hstv]
  | chanParticipantFinished r lb c =>
    cases hs : s.socket
    · simp only [step, hs]
      exact Nat.le_refl _
    · simp only [step, hs]
      exact load_status_mono s r lb c h
  | tapJoin u =>
    cases hv : joinVisible s u <;> simp only [step, hv, joinRace] <;>
      exact Nat.le_refl _
  | joinSuccess r lb c => exact load_status_mono s r lb c h
  | tapStart u =>
    cases hv : startVisible s u <;> simp only [step, hv, startRaceAsCreator] <;>
      exact Nat.le_refl _
  | startSuccess => exact Nat.le_refl _
  | tapBeginRacing u perm now =>
    cases hv : beginVisible s u
    · simp only [step, hv]
      exact Nat.le_refl _
    · have hstep : (step s (SessionEvent.tapBeginRacing u perm now)).1
          = startRacing s perm now := by
        simp [step, hv]
      rw [hstep, statusOf_startRacing]
  | tapFinish now r lb c =>
    cases hrc : s.isRacing
    · simp only [step, hrc]
      exact Nat.le_refl _
    · simp only [step, hrc]
      have hf : fetchOk (finishRace s now).1 r lb = true := h
      exact load_status_mono (finishRace s now).1 r lb c hf

/-- C7 amended: along any session trace whose reloads never deliver a status
behind the locally observed one and where race_started does not arrive on an
open socket after completed, the observed status only advances along
waiting → active → completed — it never regresses. -/
theorem status_monotone_trace (s : SessionState) (es : List SessionEvent)
    (h : goodTrace s es = true) :
    rank (statusOf s) ≤ rank (statusOf (runTrace s es)) := by
  induction es generalizing s with
  | nil => exact Nat.le_refl _
  | cons e t ih =>
    have h2 : stepOk s e = true ∧ goodTrace (step s e).1 t = true := by
      simpa [goodTrace] using h
    exact Nat.le_trans (step_status_mono s e h2.1) (ih (step s e).1 h2.2)

/-- Counterexample to C7 as stated: over arbitrary event sequences the locally
observed status can regress — here the reload triggered by a
participant_finished event delivers a waiting snapshot after race_started had
made the local status active, so the status moves active → waiting. -/
theorem status_regression :
    statusOf (runTrace initialState
        [SessionEvent.load (some raceW) (some []) (some 7),
         SessionEvent.chanRaceStarted true 100]) = some RaceStatus.active ∧
      statusOf (runTrace initialState
        [SessionEvent.load (some raceW) (some []) (some 7),
         SessionEvent.chanRaceStarted true 100,
         SessionEvent.chanParticipantFinished (some raceW) (some []) (some 7)])
        = some RaceStatus.waiting := by
  exact ⟨rfl, rfl⟩

/-- Witness for C7's amended theorem on a concrete admissible trace. -/
theorem status_monotone_trace_witness :
    rank (statusOf initialState) ≤ rank (statusOf (runTrace initialState
      [SessionEvent.load (some raceW) (some []) (some 7),
       SessionEvent.chanRaceStarted true 100])) :=
  status_monotone_trace initialState
    [SessionEvent.load (some raceW) (some []) (some 7),
     SessionEvent.chanRaceStarted true 100] (by decide)
